import Mathlib

/-
  Verification of the dcnow subsystem of openMenu (dcnow_json.c, dcnow_api.c).

  The C sources are shallowly embedded: C strings become `List Char`
  (the end of the list plays the role of the NUL terminator), machine
  integers become `Int`/`Nat`, out-parameters become returned values and
  the process-wide cache becomes explicit state passing.  The capacity
  constants (JSON_MAX_GAMES, JSON_MAX_NAME_LEN, MAX_DCNOW_GAMES,
  MAX_GAME_NAME_LEN) live in headers that are not part of the sources,
  so every definition is parameterised by them.
-/

set_option maxRecDepth 8000

namespace Dcnow

/-- The character the C sources write as a left curly brace. -/
def braceOpen : Char := Char.ofNat 123

/-- The character the C sources write as a right curly brace. -/
def braceClose : Char := Char.ofNat 125

/-- C `isspace` in the C locale: space, tab, newline, vertical tab,
    form feed, carriage return. -/
def isspaceC (c : Char) : Bool :=
  c = ' ' || c = '\t' || c = '\n' || c = '\r' || c.toNat = 11 || c.toNat = 12

/-- `skip_whitespace` from dcnow_json.c: advance past `isspace` characters. -/
def skip_whitespace (s : List Char) : List Char := s.dropWhile isspaceC

/-- The escape mapping of `parse_string` (dcnow_json.c lines 25-31):
    n, t, r map to control characters, everything else passes through. -/
def escChar (e : Char) : Char :=
  if e = 'n' then '\n' else if e = 't' then '\t' else if e = 'r' then '\r' else e

/-- The copy loop of `parse_string` (dcnow_json.c lines 20-44), after the
    opening quote has been consumed.  `i` is the number of characters
    already written to the output.  Returns the accumulated output and
    the remainder after the closing quote, or `none` when the loop stops
    on a character that is not the closing quote (end of input, or the
    capacity bound `i < max_len - 1` reached first). -/
def ps_loop (maxN : Nat) : List Char → Nat → Option (List Char × List Char)
  | [], _ => none
  | c :: rest, i =>
    if c = '\"' then some ([], rest)
    else if i + 1 < maxN then
      if c = '\\' then
        match rest with
        | [] => none
        | e :: rest2 =>
          match ps_loop maxN rest2 (i + 1) with
          | some pr => some (escChar e :: pr.1, pr.2)
          | none => none
      else
        match ps_loop maxN rest (i + 1) with
        | some pr => some (c :: pr.1, pr.2)
        | none => none
    else none

/-- `parse_string` from dcnow_json.c: requires an opening quote, then
    runs the copy loop. -/
def parse_string (p : List Char) (maxN : Nat) : Option (List Char × List Char) :=
  match p with
  | c :: rest => if c = '\"' then ps_loop maxN rest 0 else none
  | [] => none

/-- The digit-accumulation loop of `parse_number` / `atoi`:
    consume ASCII digits, building the value. -/
def digitsVal : List Char → Nat → Nat × List Char
  | c :: rest, acc =>
    if c.isDigit then digitsVal rest (acc * 10 + (c.toNat - 48)) else (acc, c :: rest)
  | [], acc => (acc, [])

/-- `parse_number` from dcnow_json.c: optional leading minus, then one or
    more ASCII digits; anything else is `none`. -/
def parse_number (p : List Char) : Option (Int × List Char) :=
  match p with
  | '-' :: p1 =>
    match p1 with
    | c :: _ =>
      if c.isDigit then
        some (-(Int.ofNat (digitsVal p1 0).1), (digitsVal p1 0).2)
      else none
    | [] => none
  | c :: _ =>
    if c.isDigit then
      some ((Int.ofNat (digitsVal p 0).1 : Int), (digitsVal p 0).2)
    else none
  | [] => none

/-- `strchr(p, quote)`: split a list at the first double quote, returning
    the characters before it and the remainder after it. -/
def strchr_quote : List Char → Option (List Char × List Char)
  | [] => none
  | c :: rest =>
    if c = '\"' then some ([], rest)
    else
      match strchr_quote rest with
      | some pr => some (c :: pr.1, pr.2)
      | none => none

/-- `find_key` from dcnow_json.c, with explicit fuel (every step of the C
    loop strictly advances the scan pointer, so `s.length` fuel suffices).
    Scans forward for a quoted occurrence of `key` followed by a colon and
    returns the position after the colon (whitespace skipped).  When the C
    code would walk past the terminating NUL (undefined behaviour on the
    real buffer) the model stops with `none`. -/
def find_key_aux (key : List Char) : Nat → List Char → Option (List Char)
  | 0, _ => none
  | fuel + 1, s =>
    match skip_whitespace s with
    | [] => none
    | c :: rest =>
      if c = '\"' then
        match strchr_quote rest with
        | some fa =>
          if fa.1 = key then
            match skip_whitespace fa.2 with
            | x :: rest2 =>
              if x = ':' then some (skip_whitespace rest2)
              else find_key_aux key fuel rest2
            | [] => none
          else find_key_aux key fuel rest
        | none => find_key_aux key fuel rest
      else find_key_aux key fuel rest

/-- `find_key(p, key)` from dcnow_json.c. -/
def find_key (s key : List Char) : Option (List Char) :=
  find_key_aux key s.length s

/-- The key `total_players`. -/
def totalPlayersKey : List Char := "total_players".toList

/-- The key `games`. -/
def gamesKey : List Char := "games".toList

/-- The key `name`. -/
def nameKey : List Char := "name".toList

/-- The key `players`. -/
def playersKey : List Char := "players".toList

/-- One parsed game entry (`json_game_t`): name and player count.  The
    struct is zeroed before parsing, so the defaults are `[]` and `0`. -/
structure json_game_t where
  name : List Char
  players : Int
deriving DecidableEq

/-- The parse result (`json_dcnow_t`). -/
structure json_dcnow_t where
  total_players : Int
  game_count : Nat
  games : List json_game_t
  valid : Bool
deriving DecidableEq

/-- The common pattern for numeric fields in dcnow_json.c (lines 112-119
    and 154-161): find the key, parse the number, default to 0 when the
    key is missing or the number is malformed. -/
def numberFieldValue (p key : List Char) : Int :=
  match find_key p key with
  | some v =>
    match parse_number v with
    | some pr => pr.1
    | none => 0
  | none => 0

/-- The pattern for the string field (dcnow_json.c lines 145-152): find
    the key, parse the string, treat the field as empty when the key is
    missing or `parse_string` fails. -/
def stringFieldValue (maxN : Nat) (p key : List Char) : List Char :=
  match find_key p key with
  | some v =>
    match parse_string v maxN with
    | some pr => pr.1
    | none => []
  | none => []

/-- The per-object field extraction of the game loop (dcnow_json.c lines
    143-161), applied to the text just after the object opening brace. -/
def parse_game_fields (maxN : Nat) (s : List Char) : json_game_t :=
  { name := stringFieldValue maxN s nameKey,
    players := numberFieldValue s playersKey }

/-- The skip-to-end-of-object loop (dcnow_json.c lines 163-169): walk the
    text keeping a brace count until it returns to zero. -/
def skipObject : List Char → Nat → List Char
  | [], _ => []
  | s, 0 => s
  | c :: rest, n + 1 =>
    skipObject rest (if c = braceOpen then n + 2 else if c = braceClose then n else n + 1)

/-- The advance to the next array element (dcnow_json.c lines 163-177):
    skip to the end of the current object, skip whitespace, skip one
    comma when present.  `rest` is the text just after the object's
    opening brace. -/
def nextGame (rest : List Char) : List Char :=
  match skip_whitespace (skipObject rest 1) with
  | ',' :: t => t
  | gv2 => gv2

/-- The game-array loop of `dcnow_json_parse` (dcnow_json.c lines
    133-178), with the remaining capacity (`JSON_MAX_GAMES - game_idx`)
    as the recursion measure. -/
def parseGames (maxN : Nat) : List Char → Nat → List json_game_t
  | _, 0 => []
  | gv, cap + 1 =>
    match gv with
    | [] => []
    | c :: _ =>
      if c = ']' then []
      else
        match skip_whitespace gv with
        | c2 :: rest =>
          if c2 = braceOpen then
            parse_game_fields maxN rest :: parseGames maxN (nextGame rest) cap
          else []
        | [] => []

/-- `dcnow_json_parse` from dcnow_json.c.  `none` plays the role of the
    C `false` return (the NULL-argument guards have no counterpart in the
    model). -/
def dcnow_json_parse (maxG maxN : Nat) (s : List Char) : Option json_dcnow_t :=
  match skip_whitespace s with
  | [] => none
  | c :: p1 =>
    if c = braceOpen then
      let total := numberFieldValue p1 totalPlayersKey
      match find_key p1 gamesKey with
      | some gv =>
        match gv with
        | c2 :: g0 =>
          if c2 = '[' then
            let gs := parseGames maxN (skip_whitespace g0) maxG
            some { total_players := total, game_count := gs.length, games := gs, valid := true }
          else
            some { total_players := total, game_count := 0, games := [], valid := true }
        | [] =>
          some { total_players := total, game_count := 0, games := [], valid := true }
      | none =>
        some { total_players := total, game_count := 0, games := [], valid := true }
    else none

/-! ## dcnow_api.c: HTTP receive/send phases of `http_get_request` -/

/-- One outcome of a `recv` call inside the receive loop of
    `http_get_request` (dcnow_api.c lines 151-167): `data n` models a
    positive return delivering up to `n` bytes, `closed` a zero return
    (peer closed the connection), `err` a negative return. -/
inductive RecvEvent where
  | data (n : Nat)
  | closed
  | err
deriving DecidableEq

/-- The final return of `http_get_request` (dcnow_api.c line 176):
    the byte count when positive, otherwise the receive-failure code. -/
def recv_finish (total : Nat) : Int :=
  if 0 < total then (total : Int) else -6

/-- The receive loop of `http_get_request` (dcnow_api.c lines 137-176):
    accumulate bytes while `total < buf_size - 1`, stop on peer close,
    on a receive error (hard failure -6 only when nothing was received),
    or when the recv outcomes run out (the inter-byte timeout elapses). -/
def recv_loop (bufSize : Nat) : List RecvEvent → Nat → Int
  | [], total => recv_finish total
  | e :: rest, total =>
    if total < bufSize - 1 then
      match e with
      | RecvEvent.data n => recv_loop bufSize rest (total + min n (bufSize - total - 1))
      | RecvEvent.closed => recv_finish total
      | RecvEvent.err => if total = 0 then -6 else recv_finish total
    else recv_finish total

/-- The literal request built by `http_get_request` (dcnow_api.c lines
    117-124); `snprintf` truncates it to 511 characters plus NUL. -/
def request_string (host path : List Char) : List Char :=
  ("GET ".toList ++ path ++ " HTTP/1.1\r\nHost: ".toList ++ host ++
    "\r\nUser-Agent: openMenu-Dreamcast/1.1-ateam\r\nAccept: application/json\r\nConnection: close\r\n\r\n".toList).take 511

/-- The send phase followed by the receive phase of `http_get_request`
    (dcnow_api.c lines 126-176).  `sent` is the value returned by `send`;
    the code fails hard (-5) only when `sent <= 0`.  The boolean records
    that the socket has been closed by the time the function returns,
    which holds on every path. -/
def http_send_recv (sent : Int) (bufSize : Nat) (evs : List RecvEvent) : Int × Bool :=
  if sent ≤ 0 then (-5, true) else (recv_loop bufSize evs 0, true)

/-! ## dcnow_api.c: `dcnow_fetch_data` and the cache -/

/-- One game entry of `dcnow_data_t`. -/
structure DcnowGame where
  game_name : List Char
  player_count : Int
  is_active : Bool
deriving DecidableEq

/-- `dcnow_data_t`: the fetch result record.  The games array is
    modelled by the list of its first `game_count` entries (the whole
    struct is zeroed before any field is written). -/
structure DcnowData where
  total_players : Int
  game_count : Nat
  games : List DcnowGame
  data_valid : Bool
  error_message : List Char
  last_update_time : Nat
deriving DecidableEq

/-- The all-zero `dcnow_data_t` produced by `memset` (dcnow_api.c
    line 186). -/
def zeroDcnowData : DcnowData :=
  { total_players := 0, game_count := 0, games := [], data_valid := false,
    error_message := [], last_update_time := 0 }

/-- The process-wide cache: `cached_data` and `cache_valid`
    (dcnow_api.c lines 18-19). -/
structure CacheState where
  cached_data : DcnowData
  cache_valid : Bool
deriving DecidableEq

/-- The static initial state of the cache (`= {0}` / `false`). -/
def initState : CacheState :=
  { cached_data := zeroDcnowData, cache_valid := false }

/-- The error message selected by the switch in `dcnow_fetch_data`
    (dcnow_api.c lines 197-204). -/
def errMsgFor (code : Int) : List Char :=
  if code = -2 then "Socket creation failed".toList
  else if code = -3 then "DNS lookup failed".toList
  else if code = -4 then "Connection failed/timeout".toList
  else if code = -5 then "Failed to send request".toList
  else if code = -6 then "Failed to receive data".toList
  else "Network error".toList

/-- `strstr(response, CRLFCRLF)` followed by the `+ 4` skip (dcnow_api.c
    lines 210-216): the body after the first blank line, if any. -/
def splitBody : List Char → Option (List Char)
  | '\r' :: '\n' :: '\r' :: '\n' :: rest => some rest
  | _ :: rest => splitBody rest
  | [] => none

/-- `strncmp(response, http1, 7) == 0` (dcnow_api.c line 219). -/
def startsWithHTTP1 : List Char → Bool
  | 'H' :: 'T' :: 'T' :: 'P' :: '/' :: '1' :: '.' :: _ => true
  | _ => false

/-- `strchr(status_line, space)` followed by the increment (dcnow_api.c
    lines 222-224): the text after the first space, if any. -/
def afterFirstSpace : List Char → Option (List Char)
  | [] => none
  | ' ' :: rest => some rest
  | _ :: rest => afterFirstSpace rest

/-- C `atoi`: skip whitespace, optional sign, digits; 0 when no digit
    follows. -/
def atoi (s : List Char) : Int :=
  match skip_whitespace s with
  | '-' :: r => -(Int.ofNat (digitsVal r 0).1)
  | '+' :: r => (Int.ofNat (digitsVal r 0).1 : Int)
  | r => (Int.ofNat (digitsVal r 0).1 : Int)

/-- The status-code extraction of `dcnow_fetch_data` (dcnow_api.c lines
    219-225): only performed when the response starts with `HTTP/1.` and
    contains a space. -/
def http_status_code (resp : List Char) : Option Int :=
  if startsWithHTTP1 resp then
    match afterFirstSpace resp with
    | some after => some (atoi after)
    | none => none
  else none

/-- `dcnow_fetch_data` (dcnow_api.c lines 180-268, the `_arch_dreamcast`
    path).  The outcome of `http_get_request` is an input: either a
    negative failure code or the accumulated response text.  Returns the
    C return value, the out-parameter `*data`, and the new cache state. -/
def dcnow_fetch_data (maxG maxN maxDC maxGN : Nat) (resp : Except Int (List Char))
    (now : Nat) (st : CacheState) : Int × DcnowData × CacheState :=
  match resp with
  | Except.error code =>
    (code, { zeroDcnowData with error_message := errMsgFor code, data_valid := false }, st)
  | Except.ok response =>
    match splitBody response with
    | none =>
      (-7,
        { zeroDcnowData with
            error_message := "Invalid HTTP response".toList,
            data_valid := false },
        st)
    | some json_start =>
      let badStatus : Option Int :=
        match http_status_code response with
        | some code => if code ≠ 200 then some code else none
        | none => none
      match badStatus with
      | some code =>
        (-8,
          { zeroDcnowData with
              error_message := "HTTP error ".toList ++ (toString code).toList,
              data_valid := false },
          st)
      | none =>
        match dcnow_json_parse maxG maxN json_start with
        | none =>
          (-9,
            { zeroDcnowData with
                error_message := "JSON parse error".toList,
                data_valid := false },
            st)
        | some jr =>
          if jr.valid = false then
            (-10,
              { zeroDcnowData with
                  error_message := "Invalid JSON data".toList,
                  data_valid := false },
              st)
          else
            let d : DcnowData :=
              { total_players := jr.total_players,
                game_count := jr.game_count,
                games := (jr.games.take maxDC).map (fun g =>
                  { game_name := g.name.take (maxGN - 1),
                    player_count := g.players,
                    is_active := decide ((0 : Int) < g.players) }),
                data_valid := true,
                error_message := [],
                last_update_time := now }
            (0, d, { cached_data := d, cache_valid := true })

/-- `dcnow_get_cached_data` (dcnow_api.c lines 311-318): a read-only
    copy of the cache when it is valid. -/
def dcnow_get_cached_data (st : CacheState) : Option DcnowData :=
  if st.cache_valid then some st.cached_data else none

/-- `dcnow_clear_cache` (dcnow_api.c lines 320-323). -/
def dcnow_clear_cache (_ : CacheState) : CacheState := initState

/-- `dcnow_init` effect on the cache (dcnow_api.c lines 22-42). -/
def dcnow_init (_ : CacheState) : CacheState := initState

/-- One call into the dcnow API, as far as the cache is concerned.  The
    fetch carries the network outcome and the clock reading as data. -/
inductive DcnowOp where
  | init
  | fetch (resp : Except Int (List Char)) (now : Nat)
  | getCached
  | clearCache

/-- The effect of one API call on the process-wide cache. -/
def dcnow_step (maxG maxN maxDC maxGN : Nat) (st : CacheState) : DcnowOp → CacheState
  | DcnowOp.init => dcnow_init st
  | DcnowOp.clearCache => dcnow_clear_cache st
  | DcnowOp.getCached => st
  | DcnowOp.fetch resp now => (dcnow_fetch_data maxG maxN maxDC maxGN resp now st).2.2

/-- The cache invariant of the specification: a valid cache only ever
    holds a valid result. -/
def cacheInv (st : CacheState) : Prop :=
  st.cache_valid = true → st.cached_data.data_valid = true

/-! ## Supporting lemmas -/

/-- `key` read literally at the front of `s`. -/
def matchesAt : List Char → List Char → Bool
  | [], _ => true
  | _ :: _, [] => false
  | k :: ks, c :: cs => k = c && matchesAt ks cs

/-- `key` occurs contiguously somewhere in `s`. -/
def occursIn (key : List Char) : List Char → Bool
  | [] => key.isEmpty
  | c :: rest => matchesAt key (c :: rest) || occursIn key rest

/-- The result record of the no-games-array branch of `dcnow_json_parse`
    (dcnow_json.c lines 121-127). -/
def noGamesResult (p1 : List Char) : json_dcnow_t :=
  { total_players := numberFieldValue p1 totalPlayersKey,
    game_count := 0, games := [], valid := true }

/-- Whether a numeric field is missing or malformed at `p`: the key is
    not found, or the text after its colon does not parse as an optional
    minus followed by at least one ASCII digit. -/
def numberFieldBadB (p key : List Char) : Bool :=
  match find_key p key with
  | none => true
  | some v => (parse_number v).isNone

/-- The C7 test payload: a top-level object with a `total_players` field
    and no `games` key. -/
def c7input : List Char := "\x7b\"total_players\": 42\x7d".toList

/-- The C6 test payload: three game entries, to be decoded at capacity
    two. -/
def c6input : List Char :=
  "\x7b\"games\":[\x7b\"name\":\"A\",\"players\":1\x7d,\x7b\"name\":\"B\",\"players\":2\x7d,\x7b\"name\":\"C\",\"players\":3\x7d]\x7d".toList

/-- The C10 test payload: the first game object has no `name` key; the
    second sibling object has `name` set to `B`. -/
def c10input : List Char :=
  "\x7b\"games\":[\x7b\"players\":1\x7d,\x7b\"name\":\"B\",\"players\":7\x7d]\x7d".toList

/-- The C4 test payload: a game name of five characters decoded with a
    name capacity (`JSON_MAX_NAME_LEN`) of four. -/
def c4input : List Char := "\x7b\"games\":[\x7b\"name\":\"ABCDE\",\"players\":2\x7d]\x7d".toList

/-- The C1 test response: a 404 status line, one header, the blank
    line, and an empty-object body. -/
def c1resp : List Char :=
  "HTTP/1.1 404 Not Found\r\nContent-Type: text/plain\r\n\r\n\x7b\x7d".toList

theorem matchesAt_self_append (key t : List Char) : matchesAt key (key ++ t) = true := by
  induction key with
  | nil => rfl
  | cons k ks ih => simp [matchesAt, ih]

theorem occursIn_self_append (key t : List Char) : occursIn key (key ++ t) = true := by
  cases h : key ++ t with
  | nil =>
    rcases List.append_eq_nil.mp h with ⟨hk, _⟩
    subst hk
    simp [occursIn]
  | cons c l =>
    rw [occursIn, ← h, matchesAt_self_append]
    simp

theorem occursIn_cons (key : List Char) (c : Char) (t : List Char)
    (h : occursIn key t = true) : occursIn key (c :: t) = true := by
  rw [occursIn, h]
  simp

theorem occursIn_append (key pre t : List Char)
    (h : occursIn key t = true) : occursIn key (pre ++ t) = true := by
  induction pre with
  | nil => simpa using h
  | cons c cs ih => exact occursIn_cons key c (cs ++ t) ih

theorem occursIn_of_skip_whitespace (key s : List Char)
    (h : occursIn key (skip_whitespace s) = true) : occursIn key s = true := by
  have h2 : occursIn key (s.takeWhile isspaceC ++ s.dropWhile isspaceC) = true :=
    occursIn_append key _ _ h
  rwa [List.takeWhile_append_dropWhile] at h2

theorem strchr_quote_eq (l : List Char) (pr : List Char × List Char)
    (h : strchr_quote l = some pr) : l = pr.1 ++ '\"' :: pr.2 := by
  induction l generalizing pr with
  | nil => simp [strchr_quote] at h
  | cons c rest ih =>
    rw [strchr_quote] at h
    by_cases hc : c = '\"'
    · rw [if_pos hc] at h
      cases h
      simp [hc]
    · rw [if_neg hc] at h
      cases hq : strchr_quote rest with
      | none => rw [hq] at h; cases h
      | some pr' =>
        rw [hq] at h
        cases h
        simp [ih pr' hq]

theorem find_key_aux_occurs (key : List Char) :
    ∀ fuel s v, find_key_aux key fuel s = some v → occursIn key s = true := by
  intro fuel
  induction fuel with
  | zero => intro s v h; simp [find_key_aux] at h
  | succ fuel ih =>
    intro s v h
    cases hsw : skip_whitespace s with
    | nil => rw [find_key_aux, hsw] at h; cases h
    | cons c rest =>
      have hstep : find_key_aux key (fuel + 1) s =
          (if c = '\"' then
            match strchr_quote rest with
            | some fa =>
              if fa.1 = key then
                match skip_whitespace fa.2 with
                | x :: rest2 =>
                  if x = ':' then some (skip_whitespace rest2)
                  else find_key_aux key fuel rest2
                | [] => none
              else find_key_aux key fuel rest
            | none => find_key_aux key fuel rest
          else find_key_aux key fuel rest) := by
        rw [find_key_aux, hsw]
      rw [hstep] at h
      apply occursIn_of_skip_whitespace
      rw [hsw]
      by_cases hc : c = '\"'
      · rw [if_pos hc] at h
        cases hq : strchr_quote rest with
        | none =>
          rw [hq] at h
          dsimp only at h
          exact occursIn_cons key c rest (ih rest v h)
        | some fa =>
          rw [hq] at h
          dsimp only at h
          by_cases hf : fa.1 = key
          · rw [if_pos hf] at h
            have hrest : rest = key ++ '\"' :: fa.2 := by
              have := strchr_quote_eq rest fa hq
              rwa [hf] at this
            exact occursIn_cons key c rest (hrest ▸ occursIn_self_append key _)
          · rw [if_neg hf] at h
            exact occursIn_cons key c rest (ih rest v h)
      · rw [if_neg hc] at h
        exact occursIn_cons key c rest (ih rest v h)

theorem find_key_occurs (s key : List Char) (v : List Char)
    (h : find_key s key = some v) : occursIn key s = true :=
  find_key_aux_occurs key s.length s v h

theorem find_key_of_not_occurs (s key : List Char)
    (h : occursIn key s = false) : find_key s key = none := by
  cases hf : find_key s key with
  | none => rfl
  | some v =>
    have := find_key_occurs s key v hf
    rw [this] at h
    cases h

theorem parseGames_zero (maxN : Nat) (gv : List Char) : parseGames maxN gv 0 = [] := rfl

theorem parseGames_succ (maxN : Nat) (gv : List Char) (cap : Nat) :
    parseGames maxN gv (cap + 1) =
      match gv with
      | [] => []
      | c :: _ =>
        if c = ']' then []
        else
          match skip_whitespace gv with
          | c2 :: rest =>
            if c2 = braceOpen then
              parse_game_fields maxN rest :: parseGames maxN (nextGame rest) cap
            else []
          | [] => [] := rfl

theorem parseGames_length (maxN : Nat) : ∀ cap gv, (parseGames maxN gv cap).length ≤ cap := by
  intro cap
  induction cap with
  | zero => intro gv; rw [parseGames_zero]; exact Nat.le_refl 0
  | succ cap ih =>
    intro gv
    rw [parseGames_succ]
    cases gv with
    | nil => exact Nat.zero_le _
    | cons c l =>
      dsimp only
      by_cases hc : c = ']'
      · rw [if_pos hc]; exact Nat.zero_le _
      · rw [if_neg hc]
        cases hsw : skip_whitespace (c :: l) with
        | nil => exact Nat.zero_le _
        | cons c2 rest =>
          dsimp only
          by_cases hb : c2 = braceOpen
          · rw [if_pos hb]
            exact Nat.succ_le_succ (ih (nextGame rest))
          · rw [if_neg hb]; exact Nat.zero_le _

theorem parseGames_take (maxN : Nat) : ∀ cap cap' gv, cap ≤ cap' →
    parseGames maxN gv cap = (parseGames maxN gv cap').take cap := by
  intro cap
  induction cap with
  | zero => intro cap' gv _; rw [parseGames_zero, List.take_zero]
  | succ cap ih =>
    intro cap' gv h
    cases cap' with
    | zero => exact absurd h (Nat.not_succ_le_zero cap)
    | succ cap'' =>
      have h2 : cap ≤ cap'' := Nat.succ_le_succ_iff.mp h
      rw [parseGames_succ, parseGames_succ]
      cases gv with
      | nil => rfl
      | cons c l =>
        dsimp only
        by_cases hc : c = ']'
        · simp only [if_pos hc]; rfl
        · simp only [if_neg hc]
          cases hsw : skip_whitespace (c :: l) with
          | nil => rfl
          | cons c2 rest =>
            dsimp only
            by_cases hb : c2 = braceOpen
            · simp only [if_pos hb, List.take_succ_cons]
              exact congrArg _ (ih cap'' (nextGame rest) h2)
            · simp only [if_neg hb]; rfl


theorem json_parse_nil (maxG maxN : Nat) (s : List Char)
    (h : skip_whitespace s = []) : dcnow_json_parse maxG maxN s = none := by
  rw [dcnow_json_parse, h]

theorem json_parse_cons (maxG maxN : Nat) (s : List Char) (c : Char) (p1 : List Char)
    (h : skip_whitespace s = c :: p1) :
    dcnow_json_parse maxG maxN s =
      (if c = braceOpen then
        match find_key p1 gamesKey with
        | some gv =>
          match gv with
          | c2 :: g0 =>
            if c2 = '[' then
              some { total_players := numberFieldValue p1 totalPlayersKey,
                     game_count := (parseGames maxN (skip_whitespace g0) maxG).length,
                     games := parseGames maxN (skip_whitespace g0) maxG, valid := true }
            else some (noGamesResult p1)
          | [] => some (noGamesResult p1)
        | none => some (noGamesResult p1)
      else none) := by
  rw [dcnow_json_parse, h]
  rfl

theorem json_parse_no_games (maxG maxN : Nat) (s : List Char) (p1 : List Char)
    (h1 : skip_whitespace s = braceOpen :: p1)
    (h2 : find_key p1 gamesKey = none) :
    dcnow_json_parse maxG maxN s = some (noGamesResult p1) := by
  rw [json_parse_cons maxG maxN s braceOpen p1 h1, if_pos rfl, h2]

/-- Structure of every successful parse: once the opening brace is seen
    the parse always succeeds, the result is marked valid, the total is
    the defaulted numeric field and the game count is capped. -/
theorem json_parse_shape (maxG maxN : Nat) (s : List Char) (p1 : List Char)
    (h1 : skip_whitespace s = braceOpen :: p1) :
    ∃ r, dcnow_json_parse maxG maxN s = some r ∧ r.valid = true ∧
      r.total_players = numberFieldValue p1 totalPlayersKey ∧
      r.game_count ≤ maxG := by
  rw [json_parse_cons maxG maxN s braceOpen p1 h1, if_pos rfl]
  cases hg : find_key p1 gamesKey with
  | none => exact ⟨noGamesResult p1, rfl, rfl, rfl, Nat.zero_le _⟩
  | some gv =>
    cases gv with
    | nil => exact ⟨noGamesResult p1, rfl, rfl, rfl, Nat.zero_le _⟩
    | cons c2 g0 =>
      dsimp only
      by_cases hb : c2 = '['
      · rw [if_pos hb]
        exact ⟨_, rfl, rfl, rfl, parseGames_length maxN maxG (skip_whitespace g0)⟩
      · rw [if_neg hb]
        exact ⟨noGamesResult p1, rfl, rfl, rfl, Nat.zero_le _⟩

theorem ps_loop_nil (maxN : Nat) (i : Nat) : ps_loop maxN [] i = none := rfl

theorem ps_loop_cons (maxN : Nat) (c : Char) (rest : List Char) (i : Nat) :
    ps_loop maxN (c :: rest) i =
      (if c = '\"' then some ([], rest)
      else if i + 1 < maxN then
        if c = '\\' then
          match rest with
          | [] => none
          | e :: rest2 =>
            match ps_loop maxN rest2 (i + 1) with
            | some pr => some (escChar e :: pr.1, pr.2)
            | none => none
        else
          match ps_loop maxN rest (i + 1) with
          | some pr => some (c :: pr.1, pr.2)
          | none => none
      else none) := by
  rw [ps_loop.eq_def]

theorem ps_loop_some_len (maxN : Nat) :
    ∀ n p, List.length p ≤ n → ∀ i pr, ps_loop maxN p i = some pr →
      pr.1 = [] ∨ i + pr.1.length < maxN := by
  intro n
  induction n with
  | zero =>
    intro p hp i pr h
    rw [List.length_eq_zero.mp (Nat.le_zero.mp hp)] at h
    cases h
  | succ n ih =>
    intro p hp i pr h
    cases p with
    | nil => cases h
    | cons c rest =>
      rw [ps_loop_cons] at h
      by_cases hc : c = '\"'
      · rw [if_pos hc] at h
        cases h
        exact Or.inl rfl
      · rw [if_neg hc] at h
        by_cases hlt : i + 1 < maxN
        · rw [if_pos hlt] at h
          by_cases hbs : c = '\\'
          · rw [if_pos hbs] at h
            cases rest with
            | nil => cases h
            | cons e rest2 =>
              dsimp only at h
              cases hr : ps_loop maxN rest2 (i + 1) with
              | none => rw [hr] at h; cases h
              | some pr' =>
                rw [hr] at h
                cases h
                have hlen : rest2.length ≤ n := by
                  simp only [List.length_cons] at hp
                  omega
                rcases ih rest2 hlen (i + 1) pr' hr with h0 | h0
                · rw [h0]
                  exact Or.inr (by simpa using hlt)
                · refine Or.inr ?_
                  simp only [List.length_cons]
                  omega
          · rw [if_neg hbs] at h
            cases hr : ps_loop maxN rest (i + 1) with
            | none => rw [hr] at h; cases h
            | some pr' =>
              rw [hr] at h
              cases h
              have hlen : rest.length ≤ n := by
                simp only [List.length_cons] at hp
                omega
              rcases ih rest hlen (i + 1) pr' hr with h0 | h0
              · rw [h0]
                exact Or.inr (by simpa using hlt)
              · refine Or.inr ?_
                simp only [List.length_cons]
                omega
        · rw [if_neg hlt] at h
          cases h

theorem ps_loop_plain (maxN : Nat) :
    ∀ content rest i, ('\"' : Char) ∉ content → ('\\' : Char) ∉ content →
      ps_loop maxN (content ++ '\"' :: rest) i =
        if content = [] ∨ i + content.length < maxN then some (content, rest) else none := by
  intro content
  induction content with
  | nil =>
    intro rest i _ _
    rw [if_pos (Or.inl rfl), List.nil_append, ps_loop_cons, if_pos rfl]
  | cons c cs ih =>
    intro rest i hq hb
    have hcq : ¬c = '\"' := fun h => hq (h ▸ List.mem_cons_self c cs)
    have hcb : ¬c = '\\' := fun h => hb (h ▸ List.mem_cons_self c cs)
    have hq' : ('\"' : Char) ∉ cs := fun h => hq (List.mem_cons_of_mem c h)
    have hb' : ('\\' : Char) ∉ cs := fun h => hb (List.mem_cons_of_mem c h)
    rw [List.cons_append, ps_loop_cons, if_neg hcq]
    by_cases hlt : i + 1 < maxN
    · rw [if_pos hlt, if_neg hcb, ih rest (i + 1) hq' hb']
      by_cases hin : cs = [] ∨ i + 1 + cs.length < maxN
      · rw [if_pos hin]
        have hout : (c :: cs = [] ∨ i + (c :: cs).length < maxN) := by
          refine Or.inr ?_
          simp only [List.length_cons]
          rcases hin with h0 | h0
          · subst h0; simpa using hlt
          · omega
        rw [if_pos hout]
      · rw [if_neg hin]
        have hout : ¬(c :: cs = [] ∨ i + (c :: cs).length < maxN) := by
          rintro (h0 | h0)
          · cases h0
          · refine hin (Or.inr ?_)
            simp only [List.length_cons] at h0
            omega
        rw [if_neg hout]
    · rw [if_neg hlt]
      have hout : ¬(c :: cs = [] ∨ i + (c :: cs).length < maxN) := by
        rintro (h0 | h0)
        · cases h0
        · refine hlt ?_
          simp only [List.length_cons] at h0
          omega
      rw [if_neg hout]

theorem ps_loop_unterminated (maxN : Nat) :
    ∀ n content, List.length content ≤ n → ('\"' : Char) ∉ content →
      ∀ i, ps_loop maxN content i = none := by
  intro n
  induction n with
  | zero =>
    intro content hlen _ i
    rw [List.length_eq_zero.mp (Nat.le_zero.mp hlen)]
    rfl
  | succ n ih =>
    intro content hlen hq i
    cases content with
    | nil => rfl
    | cons c rest =>
      have hcq : ¬c = '\"' := fun h => hq (h ▸ List.mem_cons_self c rest)
      have hq' : ('\"' : Char) ∉ rest := fun h => hq (List.mem_cons_of_mem c h)
      rw [ps_loop_cons, if_neg hcq]
      by_cases hlt : i + 1 < maxN
      · rw [if_pos hlt]
        by_cases hbs : c = '\\'
        · rw [if_pos hbs]
          cases rest with
          | nil => rfl
          | cons e rest2 =>
            have hq2 : ('\"' : Char) ∉ rest2 := fun h =>
              hq' (List.mem_cons_of_mem e h)
            have hlen2 : rest2.length ≤ n := by
              simp only [List.length_cons] at hlen
              omega
            dsimp only
            rw [ih rest2 hlen2 hq2 (i + 1)]
        · rw [if_neg hbs]
          have hlen2 : rest.length ≤ n := by
            simp only [List.length_cons] at hlen
            omega
          rw [ih rest hlen2 hq' (i + 1)]
      · rw [if_neg hlt]

theorem parse_string_some_len (maxN : Nat) (v : List Char) (pr : List Char × List Char)
    (h : parse_string v maxN = some pr) : pr.1.length ≤ maxN - 1 := by
  cases v with
  | nil => cases h
  | cons c rest =>
    rw [parse_string] at h
    by_cases hc : c = '\"'
    · rw [if_pos hc] at h
      rcases ps_loop_some_len maxN rest.length rest (Nat.le_refl _) 0 pr h with h0 | h0
      · rw [h0]; exact Nat.zero_le _
      · omega
    · rw [if_neg hc] at h
      cases h

theorem parse_string_plain (maxN : Nat) (content rest : List Char)
    (hq : ('\"' : Char) ∉ content) (hb : ('\\' : Char) ∉ content) :
    parse_string ('\"' :: (content ++ '\"' :: rest)) maxN =
      if content = [] ∨ content.length < maxN then some (content, rest) else none := by
  rw [parse_string, if_pos rfl, ps_loop_plain maxN content rest 0 hq hb]
  simp only [Nat.zero_add]

theorem parse_string_unterminated (maxN : Nat) (content : List Char)
    (hq : ('\"' : Char) ∉ content) :
    parse_string ('\"' :: content) maxN = none := by
  rw [parse_string, if_pos rfl,
    ps_loop_unterminated maxN content.length content (Nat.le_refl _) hq 0]

theorem parse_game_fields_name_fail (maxN : Nat) (s v : List Char)
    (h1 : find_key s nameKey = some v) (h2 : parse_string v maxN = none) :
    (parse_game_fields maxN s).name = [] := by
  simp [parse_game_fields, stringFieldValue, h1, h2]

theorem recv_loop_nil (bs total : Nat) : recv_loop bs [] total = recv_finish total := rfl

theorem recv_loop_cons (bs : Nat) (e : RecvEvent) (rest : List RecvEvent) (total : Nat) :
    recv_loop bs (e :: rest) total =
      (if total < bs - 1 then
        match e with
        | RecvEvent.data n => recv_loop bs rest (total + min n (bs - total - 1))
        | RecvEvent.closed => recv_finish total
        | RecvEvent.err => if total = 0 then -6 else recv_finish total
      else recv_finish total) := by
  rw [recv_loop.eq_def]

/-- Every exit of `dcnow_fetch_data` either leaves the cache untouched or
    is the full-success exit: return value 0 and a cache marked valid
    holding a valid result. -/
theorem dcnow_fetch_data_cases (mg mn md mgn : Nat) (resp : Except Int (List Char))
    (now : Nat) (st : CacheState) :
    (dcnow_fetch_data mg mn md mgn resp now st).2.2 = st ∨
    ((dcnow_fetch_data mg mn md mgn resp now st).1 = 0 ∧
     (dcnow_fetch_data mg mn md mgn resp now st).2.2.cache_valid = true ∧
     (dcnow_fetch_data mg mn md mgn resp now st).2.2.cached_data.data_valid = true) := by
  cases resp with
  | error code => exact Or.inl rfl
  | ok response =>
    simp only [dcnow_fetch_data]
    cases hb : splitBody response with
    | none => exact Or.inl rfl
    | some body =>
      dsimp only
      cases hs : http_status_code response with
      | none =>
        dsimp only
        cases hp : dcnow_json_parse mg mn body with
        | none => exact Or.inl rfl
        | some jr =>
          dsimp only
          by_cases hv : jr.valid = false
          · rw [if_pos hv]
            exact Or.inl rfl
          · rw [if_neg hv]
            exact Or.inr ⟨rfl, rfl, rfl⟩
      | some code =>
        dsimp only
        by_cases hne : code ≠ 200
        · rw [if_pos hne]
          exact Or.inl rfl
        · rw [if_neg hne]
          dsimp only
          cases hp : dcnow_json_parse mg mn body with
          | none => exact Or.inl rfl
          | some jr =>
            dsimp only
            by_cases hv : jr.valid = false
            · rw [if_pos hv]
              exact Or.inl rfl
            · rw [if_neg hv]
              exact Or.inr ⟨rfl, rfl, rfl⟩

theorem cacheInv_initState : cacheInv initState := by
  intro hv
  exact absurd hv (by decide)

theorem dcnow_step_inv (mg mn md mgn : Nat) (st : CacheState) (op : DcnowOp)
    (h : cacheInv st) : cacheInv (dcnow_step mg mn md mgn st op) := by
  cases op with
  | init => exact cacheInv_initState
  | clearCache => exact cacheInv_initState
  | getCached => exact h
  | fetch resp now =>
    rcases dcnow_fetch_data_cases mg mn md mgn resp now st with h0 | h0
    · rw [dcnow_step, h0]
      exact h
    · intro _
      rw [dcnow_step]
      exact h0.2.2

theorem dcnow_foldl_inv (mg mn md mgn : Nat) :
    ∀ ops st, cacheInv st →
      cacheInv (List.foldl (dcnow_step mg mn md mgn) st ops) := by
  intro ops
  induction ops with
  | nil => intro st h; exact h
  | cons op rest ih =>
    intro st h
    exact ih (dcnow_step mg mn md mgn st op) (dcnow_step_inv mg mn md mgn st op h)


theorem numberFieldValue_of_bad (p key : List Char)
    (h : numberFieldBadB p key = true) : numberFieldValue p key = 0 := by
  rw [numberFieldBadB] at h
  rw [numberFieldValue]
  cases hf : find_key p key with
  | none => rfl
  | some v =>
    rw [hf] at h
    dsimp only at h
    dsimp only
    rw [Option.isNone_iff_eq_none.mp h]

/-! ## The claims -/

/-- C9: for every input text whose first non-whitespace character is not
    a left brace, `dcnow_json_parse` fails (returns `none`, the model of
    the C `false` return): the decoder accepts only a top-level object. -/
theorem claim_c9 (maxG maxN : Nat) (s : List Char)
    (h : (skip_whitespace s).head? ≠ some braceOpen) :
    dcnow_json_parse maxG maxN s = none := by
  cases hsw : skip_whitespace s with
  | nil => exact json_parse_nil maxG maxN s hsw
  | cons c p1 =>
    have hc : ¬c = braceOpen := by
      intro hc
      rw [hsw, hc] at h
      exact h rfl
    rw [json_parse_cons maxG maxN s c p1 hsw, if_neg hc]

/-- Witness for C9 at the concrete input `" [1,2]"`. -/
theorem claim_c9_witness : dcnow_json_parse 8 32 (" [1,2]".toList) = none :=
  claim_c9 8 32 (" [1,2]".toList) (by decide)

/-- C7: for every top-level-object input that contains no occurrence of
    the text `games` anywhere (in particular no `games` key),
    `dcnow_json_parse` succeeds with `valid = true`, `game_count = 0`,
    and `total_players` the value parsed from the `total_players` field
    (0 when that field is absent or malformed) — that is exactly
    `noGamesResult`. -/
theorem claim_c7 (maxG maxN : Nat) (s p1 : List Char)
    (h1 : skip_whitespace s = braceOpen :: p1)
    (h2 : occursIn gamesKey s = false) :
    dcnow_json_parse maxG maxN s = some (noGamesResult p1) := by
  apply json_parse_no_games maxG maxN s p1 h1
  apply find_key_of_not_occurs
  cases ho : occursIn gamesKey p1 with
  | false => rfl
  | true =>
    have hcontra : occursIn gamesKey s = true := by
      apply occursIn_of_skip_whitespace
      rw [h1]
      exact occursIn_cons gamesKey braceOpen p1 ho
    rw [hcontra] at h2
    cases h2


/-- Witness for C7 at a concrete payload without a `games` key. -/
theorem claim_c7_witness :
    dcnow_json_parse 8 32 c7input =
      some { total_players := 42, game_count := 0, games := [], valid := true } := by
  have h := claim_c7 8 32 c7input ("\"total_players\": 42\x7d".toList) (by decide) (by decide)
  rw [h]
  decide

/-- C8: a missing or malformed numeric field never fails the whole
    parse and is defaulted to 0: (1) once the opening brace is seen the
    parse always succeeds; (2) when the `total_players` field is missing
    or malformed the result carries `total_players = 0`; (3) when a game
    object's `players` field is missing or malformed the game loop body
    stores `players = 0`. -/
theorem claim_c8 :
    (∀ (maxG maxN : Nat) (s p1 : List Char), skip_whitespace s = braceOpen :: p1 →
       (dcnow_json_parse maxG maxN s).isSome = true) ∧
    (∀ (maxG maxN : Nat) (s p1 : List Char) (r : json_dcnow_t),
       skip_whitespace s = braceOpen :: p1 →
       numberFieldBadB p1 totalPlayersKey = true →
       dcnow_json_parse maxG maxN s = some r → r.total_players = 0) ∧
    (∀ (maxN : Nat) (s : List Char), numberFieldBadB s playersKey = true →
       (parse_game_fields maxN s).players = 0) := by
  refine ⟨?_, ?_, ?_⟩
  · intro maxG maxN s p1 h1
    rcases json_parse_shape maxG maxN s p1 h1 with ⟨r, hr, _⟩
    rw [hr]
    rfl
  · intro maxG maxN s p1 r h1 hbad hparse
    rcases json_parse_shape maxG maxN s p1 h1 with ⟨r0, hr0, _, htot, _⟩
    rw [hparse] at hr0
    cases hr0
    rw [htot]
    exact numberFieldValue_of_bad p1 totalPlayersKey hbad
  · intro maxN s hbad
    exact numberFieldValue_of_bad s playersKey hbad

/-- Witness for C8: a malformed `total_players` (a string, not a
    number) defaults to 0 with the parse still succeeding, and a game
    object whose `players` value is malformed stores 0. -/
theorem claim_c8_witness :
    (dcnow_json_parse 8 32 ("\x7b\"total_players\": \"x\"\x7d".toList)).isSome = true ∧
    ({ total_players := 0, game_count := 0, games := [], valid := true } :
      json_dcnow_t).total_players = 0 ∧
    (parse_game_fields 32 ("\"players\": \"x\"\x7d".toList)).players = 0 := by
  refine ⟨?_, ?_, ?_⟩
  · exact claim_c8.1 8 32 ("\x7b\"total_players\": \"x\"\x7d".toList)
      ("\"total_players\": \"x\"\x7d".toList) (by decide)
  · exact claim_c8.2.1 8 32 ("\x7b\"total_players\": \"x\"\x7d".toList)
      ("\"total_players\": \"x\"\x7d".toList)
      { total_players := 0, game_count := 0, games := [], valid := true }
      (by decide) (by decide) (by decide)
  · exact claim_c8.2.2 32 ("\"players\": \"x\"\x7d".toList) (by decide)

/-- C6: (1) the resulting `game_count` never exceeds the capacity
    `JSON_MAX_GAMES` (`maxG`); (2) raising the capacity only appends
    further entries: the games parsed at capacity `cap` are exactly the
    first `cap` entries parsed at any larger capacity, so excess entries
    are dropped whole and already-parsed entries are unchanged. -/
theorem claim_c6 :
    (∀ (maxG maxN : Nat) (s : List Char) (r : json_dcnow_t),
       dcnow_json_parse maxG maxN s = some r → r.game_count ≤ maxG) ∧
    (∀ (maxN : Nat) (gv : List Char) (cap cap' : Nat), cap ≤ cap' →
       parseGames maxN gv cap = (parseGames maxN gv cap').take cap) := by
  constructor
  · intro maxG maxN s r hparse
    cases hsw : skip_whitespace s with
    | nil => rw [json_parse_nil maxG maxN s hsw] at hparse; cases hparse
    | cons c p1 =>
      by_cases hc : c = braceOpen
      · subst hc
        rcases json_parse_shape maxG maxN s p1 hsw with ⟨r0, hr0, _, _, hcount⟩
        rw [hparse] at hr0
        cases hr0
        exact hcount
      · rw [json_parse_cons maxG maxN s c p1 hsw, if_neg hc] at hparse
        cases hparse
  · intro maxN gv cap cap' h
    exact parseGames_take maxN cap cap' gv h


/-- Witness for C6: three entries decoded at capacity 2 give a count of
    2, and the capacity-2 result is the two-entry prefix of the
    capacity-5 result. -/
theorem claim_c6_witness :
    ({ total_players := 0, game_count := 2,
       games := [{ name := "A".toList, players := 1 },
                 { name := "B".toList, players := 2 }],
       valid := true } : json_dcnow_t).game_count ≤ 2 ∧
    parseGames 32 ("]".toList) 2 = (parseGames 32 ("]".toList) 5).take 2 := by
  constructor
  · exact claim_c6.1 2 32 c6input
      { total_players := 0, game_count := 2,
        games := [{ name := "A".toList, players := 1 },
                  { name := "B".toList, players := 2 }],
        valid := true } (by decide)
  · exact claim_c6.2 32 ("]".toList) 2 5 (by decide)


/-- C10: the key lookup scans forward with no object-boundary
    awareness: on `c10input`, whose first game object omits `name`, the
    decoder assigns the second object's name `B` to the first game
    (instead of leaving the default empty name), while each object's own
    `players` value is used. -/
theorem claim_c10 :
    dcnow_json_parse 8 32 c10input =
      some { total_players := 0, game_count := 2,
             games := [{ name := "B".toList, players := 1 },
                       { name := "B".toList, players := 7 }],
             valid := true } ∧
    "B".toList ≠ ([] : List Char) := by
  constructor
  · decide
  · decide


/-- C4 counterexample: the claim says an over-long quoted name is
    truncated silently, the stored name being the NUL-terminated prefix
    (here `ABC` for capacity 4).  On `c4input` the decoder instead
    stores the empty name: `parse_string` fails on the over-long string
    exactly as on an unterminated one and the caller empties the field. -/
theorem claim_c4_counterexample :
    dcnow_json_parse 8 4 c4input =
      some { total_players := 0, game_count := 1,
             games := [{ name := [], players := 2 }], valid := true } ∧
    ¬("ABC".toList = ([] : List Char)) := by
  constructor
  · decide
  · decide

/-- C4 (amended): (1) a stored string always fits: at most capacity
    minus one characters; (2) a plain quoted string (no quote, no
    backslash in its content) is stored whole when its content fits in
    capacity minus one characters, and otherwise `parse_string` fails —
    it is not truncated; (3) an unterminated string also fails; (4) on
    any `parse_string` failure the caller stores the empty name. -/
theorem claim_c4 :
    (∀ (maxN : Nat) (v : List Char) (pr : List Char × List Char),
       parse_string v maxN = some pr → pr.1.length ≤ maxN - 1) ∧
    (∀ (maxN : Nat) (content rest : List Char),
       ('\"' : Char) ∉ content → ('\\' : Char) ∉ content →
       parse_string ('\"' :: (content ++ '\"' :: rest)) maxN =
         if content = [] ∨ content.length < maxN then some (content, rest) else none) ∧
    (∀ (maxN : Nat) (content : List Char), ('\"' : Char) ∉ content →
       parse_string ('\"' :: content) maxN = none) ∧
    (∀ (maxN : Nat) (s v : List Char), find_key s nameKey = some v →
       parse_string v maxN = none → (parse_game_fields maxN s).name = []) :=
  ⟨parse_string_some_len, parse_string_plain, parse_string_unterminated,
    parse_game_fields_name_fail⟩

/-- Witness for C4 at capacity 4: a five-character name makes
    `parse_string` fail, and the game loop body stores the empty name. -/
theorem claim_c4_witness :
    parse_string ("\"ABCDE\"]".toList) 4 = none ∧
    (parse_game_fields 4 ("\"name\":\"ABCDE\"\x7d".toList)).name = [] := by
  constructor
  · have e : "\"ABCDE\"]".toList = '\"' :: ("ABCDE".toList ++ '\"' :: "]".toList) := by
      decide
    have h := claim_c4.2.1 4 ("ABCDE".toList) ("]".toList) (by decide) (by decide)
    rw [e, h]
    decide
  · exact claim_c4.2.2.2 4 ("\"name\":\"ABCDE\"\x7d".toList) ("\"ABCDE\"\x7d".toList)
      (by decide) (by decide)

/-- C1: for every fetched response that contains the header/body
    boundary and whose status line (a leading `HTTP/1.` and a space)
    reports a code other than 200, `dcnow_fetch_data` fails with -8, the
    error message `HTTP error <code>` carrying the numeric code, an
    invalid result record, and the cache left unchanged. -/
theorem claim_c1 (maxG maxN maxDC maxGN : Nat) (resp body : List Char) (code : Int)
    (now : Nat) (st : CacheState)
    (hb : splitBody resp = some body)
    (hs : http_status_code resp = some code)
    (h200 : code ≠ 200) :
    dcnow_fetch_data maxG maxN maxDC maxGN (Except.ok resp) now st =
      (-8, { zeroDcnowData with
             error_message := "HTTP error ".toList ++ (toString code).toList,
             data_valid := false }, st) ∧
    (-8 : Int) < 0 := by
  refine ⟨?_, by decide⟩
  simp only [dcnow_fetch_data, hb, hs]
  rw [if_pos h200]


/-- Witness for C1 at a concrete 404 response. -/
theorem claim_c1_witness :
    dcnow_fetch_data 8 32 8 32 (Except.ok c1resp) 5 initState =
      (-8,
        { zeroDcnowData with
            error_message := "HTTP error 404".toList,
            data_valid := false },
        initState) ∧
    (-8 : Int) < 0 := by
  have h := claim_c1 8 32 8 32 c1resp ("\x7b\x7d".toList) 404 5 initState
    (by decide) (by decide) (by decide)
  refine ⟨?_, h.2⟩
  rw [h.1]
  decide

/-- C2: the cache invariant `cache_valid implies data_valid` holds
    initially and after any sequence of API calls; a fetch that does not
    return 0 (full success) leaves the cache untouched; `dcnow_init` and
    `dcnow_clear_cache` reset the cache to the cleared state. -/
theorem claim_c2 :
    cacheInv initState ∧
    (∀ (maxG maxN maxDC maxGN : Nat) (ops : List DcnowOp) (st : CacheState),
       cacheInv st → cacheInv (List.foldl (dcnow_step maxG maxN maxDC maxGN) st ops)) ∧
    (∀ (maxG maxN maxDC maxGN : Nat) (resp : Except Int (List Char)) (now : Nat)
       (st : CacheState),
       (dcnow_fetch_data maxG maxN maxDC maxGN resp now st).1 ≠ 0 →
       (dcnow_fetch_data maxG maxN maxDC maxGN resp now st).2.2 = st) ∧
    (∀ st, dcnow_init st = initState ∧ dcnow_clear_cache st = initState) := by
  refine ⟨cacheInv_initState, dcnow_foldl_inv, ?_, fun st => ⟨rfl, rfl⟩⟩
  intro maxG maxN maxDC maxGN resp now st h
  rcases dcnow_fetch_data_cases maxG maxN maxDC maxGN resp now st with h0 | h0
  · exact h0
  · exact absurd h0.1 h

/-- Witness for C2: the invariant after a concrete call sequence
    (init, a failing fetch, a cache read, a clear). -/
theorem claim_c2_witness :
    cacheInv (List.foldl (dcnow_step 8 32 8 32) initState
      [DcnowOp.init, DcnowOp.fetch (Except.error (-3)) 0, DcnowOp.getCached,
       DcnowOp.clearCache]) :=
  claim_c2.2.1 8 32 8 32
    [DcnowOp.init, DcnowOp.fetch (Except.error (-3)) 0, DcnowOp.getCached,
     DcnowOp.clearCache] initState claim_c2.1

/-- C3 counterexample: the claim says a zero-byte read (peer close) is
    never reported as an error, but when the peer closes before any byte
    has been accumulated `http_get_request` returns -6, the same hard
    receive-failure code. -/
theorem claim_c3_counterexample :
    recv_loop 8192 [RecvEvent.closed] 0 = -6 ∧ ((-6 : Int) < 0) := by
  constructor
  · decide
  · decide

/-- C3 (amended): in the receive loop, a zero-byte read ends the read;
    it is a graceful non-error end (the accumulated count is returned)
    only when at least one byte has been accumulated — with zero bytes
    the call still returns -6, exactly as for a receive error with zero
    bytes; a receive error after at least one byte is a clean end
    returning the bytes received so far. -/
theorem claim_c3 (bs : Nat) (rest : List RecvEvent) (total : Nat)
    (h : total < bs - 1) :
    (0 < total →
       recv_loop bs (RecvEvent.closed :: rest) total = (total : Int) ∧
       recv_loop bs (RecvEvent.err :: rest) total = (total : Int)) ∧
    (total = 0 →
       recv_loop bs (RecvEvent.closed :: rest) total = -6 ∧
       recv_loop bs (RecvEvent.err :: rest) total = -6) := by
  constructor
  · intro hpos
    have hne : ¬total = 0 := Nat.pos_iff_ne_zero.mp hpos
    constructor
    · rw [recv_loop_cons, if_pos h]
      dsimp only
      rw [recv_finish, if_pos hpos]
    · rw [recv_loop_cons, if_pos h]
      dsimp only
      rw [if_neg hne, recv_finish, if_pos hpos]
  · intro h0
    subst h0
    constructor
    · rw [recv_loop_cons, if_pos h]
      rfl
    · rw [recv_loop_cons, if_pos h]
      dsimp only
      rw [if_pos rfl]

/-- Witness for C3: a close or receive error after five bytes returns
    five; a receive error with nothing accumulated returns -6. -/
theorem claim_c3_witness :
    recv_loop 8192 [RecvEvent.closed] 5 = 5 ∧
    recv_loop 8192 [RecvEvent.err] 5 = 5 ∧
    recv_loop 8192 [RecvEvent.err] 0 = -6 := by
  refine ⟨?_, ?_, ?_⟩
  · exact ((claim_c3 8192 [] 5 (by decide)).1 (by decide)).1
  · exact ((claim_c3 8192 [] 5 (by decide)).1 (by decide)).2
  · exact ((claim_c3 8192 [] 0 (by decide)).2 rfl).2

/-- C5 counterexample: the claim says a partial send (fewer bytes than
    the request length) is a hard failure -5, but a positive partial
    send — 10 of the 132 request bytes — passes the `sent <= 0` check
    and the function proceeds to the receive phase, here returning 20. -/
theorem claim_c5_counterexample :
    (0 : Int) < 10 ∧
    (10 : Int) < ((request_string ("dreamcast.online".toList) ("/now".toList)).length : Int) ∧
    http_send_recv 10 8192 [RecvEvent.data 20] = (20, true) ∧
    ¬(((20 : Int), true) = ((-5 : Int), true)) := by
  refine ⟨by decide, by decide, by decide, by decide⟩

/-- C5 (amended): only a zero-byte or failed (negative) send is a hard
    failure, returning -5 with the socket closed; a positive send — even
    a partial one — is accepted and the function proceeds to the receive
    phase. -/
theorem claim_c5 :
    (∀ (sent : Int) (bs : Nat) (evs : List RecvEvent), sent ≤ 0 →
       http_send_recv sent bs evs = (-5, true)) ∧
    (∀ (sent : Int) (bs : Nat) (evs : List RecvEvent), 0 < sent →
       http_send_recv sent bs evs = (recv_loop bs evs 0, true)) := by
  constructor
  · intro sent bs evs h
    rw [http_send_recv, if_pos h]
  · intro sent bs evs h
    rw [http_send_recv, if_neg (not_le.mpr h)]

/-- Witness for C5: a zero-byte send fails with -5; a full send of the
    132-byte request proceeds to the receive phase. -/
theorem claim_c5_witness :
    http_send_recv 0 8192 [] = (-5, true) ∧
    http_send_recv 132 8192 [] = (-6, true) := by
  constructor
  · exact claim_c5.1 0 8192 [] (by decide)
  · have h := claim_c5.2 132 8192 [] (by decide)
    rw [h]
    decide

end Dcnow
